import Mathlib

/-!
# Verification of the Chefly generation-and-media pipeline

A shallow embedding, in Lean 4, of the core of the Chefly recipe
application (Go backend): the quota resolver `canGenerateRecipe`, the
reply parser `parseRecipeResponse` of the Claude service, the image
requester `GenerateFoodImage` of the OpenAI service, the image
normalizer `OptimizeRecipeImage`, the media cleanup
`DeleteRecipeImages`, and the generation orchestrator handler
`GenerateRecipe`.

Database reads, HTTP calls and filesystem operations are passed in as
explicit oracle arguments (`Except Unit _` results, or functions from
paths to outcomes); audit-log calls are recorded as explicit event
lists so that "is logged" properties can be stated.  Go machine
integers are modelled as `Int` with the `int64` range made explicit
where the code can observe it (`strconv.Atoi` range failures, wrapping
addition).  JSON decoding (`encoding/json`) is modelled by an
executable JSON text parser over `List Char` plus a decoder into the
very struct shape the Go code declares.
-/

set_option maxRecDepth 100000

namespace Chefly

/-! ## Go integer helpers -/

/-- The `int64` range bound `2^63`. -/
def int64Bound : ℤ := 9223372036854775808

/-- Go `int` (64-bit) addition with two's-complement wrap-around. -/
def goIntAdd (a b : ℤ) : ℤ :=
  ((a + b + int64Bound) % (2 * int64Bound)) - int64Bound

/-- Model of Go `strconv.Atoi`: an optional leading `+` or `-` sign
followed by at least one ASCII digit, with the value required to fit in
`int64` (`strconv` reports `ErrRange` otherwise, which the caller in
`canGenerateRecipe` treats the same as a syntax error). -/
def goAtoi (s : String) : Option ℤ :=
  let chars := s.data
  let (sign, digits) :=
    match chars with
    | '+' :: rest => ((1 : ℤ), rest)
    | '-' :: rest => ((-1 : ℤ), rest)
    | rest => ((1 : ℤ), rest)
  if digits = [] then none
  else if digits.all (fun c => c.isDigit) then
    let n : ℕ := digits.foldl (fun acc c => 10 * acc + (c.toNat - 48)) 0
    let v : ℤ := sign * n
    if -int64Bound ≤ v ∧ v < int64Bound then some v else none
  else none

/-! ## Quota Resolver (`canGenerateRecipe`, handlers/recipe.go)

The Go function reads the user's `recipe_limit` column
(`sql.NullInt64`, modelled as `Option ℤ` under an `Except` for the
query itself), the configured global limit string, and — on the paths
that reach it — the user's recipe count.  Audit-logger calls are
recorded as `QEvent`s; `countQueried` records whether the
`SELECT COUNT(*)` query was issued. -/

/-- Audit events emitted by `canGenerateRecipe`. -/
inductive QEvent where
  /-- Event `recipe.limit_check_failed` (Error): the `recipe_limit` read failed. -/
  | limitCheckFailed
  /-- Event `recipe.limit_blocked` (Warn): effective limit is `0`. -/
  | limitBlocked
  /-- Event `recipe.limit_reached` (Warn): count has reached the limit. -/
  | limitReached
  deriving DecidableEq, Repr

/-- Result of one `canGenerateRecipe` evaluation: the boolean returned,
whether the `SELECT COUNT(*)` query was issued, and the audit events
logged. -/
structure QuotaResult where
  res : Bool
  countQueried : Bool
  events : List QEvent
  deriving DecidableEq, Repr

/-- Tail of `canGenerateRecipe` from the `effectiveLimit`/`hasLimit`
assignment onwards: the `effectiveLimit == 0` short-circuit, then the
count query and the `recipeCount >= effectiveLimit` comparison.
`hasLimit` is always `true` at the call sites, kept to mirror the Go
variable. -/
def quotaCountCheck (loggerPresent : Bool) (effectiveLimit : ℤ) (hasLimit : Bool)
    (countRead : Except Unit ℕ) : QuotaResult :=
  if hasLimit ∧ effectiveLimit = 0 then
    ⟨false, false, if loggerPresent then [QEvent.limitBlocked] else []⟩
  else
    match countRead with
    | .error _ => ⟨true, true, []⟩
    | .ok recipeCount =>
      if hasLimit ∧ (recipeCount : ℤ) ≥ effectiveLimit then
        ⟨false, true, if loggerPresent then [QEvent.limitReached] else []⟩
      else
        ⟨true, true, []⟩

/-- Embedding of `canGenerateRecipe` (src/unnamed/part_010, lines
448–539).  `limitRead` is the result of the `recipe_limit` query
(`.error` = query failed, `.ok none` = SQL NULL, `.ok (some l)` =
stored per-user limit); `globalLimit` is `h.recipeGenerationLimit`;
`countRead` is the result of the `SELECT COUNT(*)` query, consulted
only if the code issues it. -/
def canGenerateRecipe (loggerPresent : Bool) (limitRead : Except Unit (Option ℤ))
    (globalLimit : String) (countRead : Except Unit ℕ) : QuotaResult :=
  match limitRead with
  | .error _ =>
    ⟨true, false, if loggerPresent then [QEvent.limitCheckFailed] else []⟩
  | .ok recipeLimit =>
    match recipeLimit with
    | some l =>
      if l = -1 then ⟨true, false, []⟩
      else quotaCountCheck loggerPresent l true countRead
    | none =>
      if globalLimit = "unlimited" ∨ globalLimit = "" then ⟨true, false, []⟩
      else
        match goAtoi globalLimit with
        | none => ⟨true, false, []⟩
        | some parsedLimit => quotaCountCheck loggerPresent parsedLimit true countRead

/-- Specification-side resolution of the *effective limit* (glossary of
the spec): `none` means no limit applies (unlimited), `some l` means the
value `l` is enforced.  Used to state the quota claims. -/
def effLimit (perUser : Option ℤ) (globalLimit : String) : Option ℤ :=
  match perUser with
  | some l => if l = -1 then none else some l
  | none =>
    if globalLimit = "unlimited" ∨ globalLimit = "" then none
    else
      match goAtoi globalLimit with
      | none => none
      | some v => some v


/-! ## JSON values and an executable model of `encoding/json`

The reply parser hands `response[jsonStart:jsonEnd+1]` to
`json.Unmarshal`.  We model this in two stages: an executable JSON text
parser over `List Char` producing a `Json` value (Go's tokenizer, with
numbers kept as exact rationals; `\uXXXX` escapes are not needed by any
claim and are rejected), and a decoder of `Json` values into the very
anonymous struct the Go code declares (unknown keys ignored, ASCII
case-insensitive key match against the all-lowercase tags, JSON `null`
leaving the current value untouched, type mismatches failing). -/

/-- A JSON value.  Object fields are kept in source order (Go assigns
them in order, so a duplicated key is last-writer-wins). -/
inductive Json where
  | null
  | bool (b : Bool)
  | num (q : ℚ)
  | str (s : String)
  | arr (elems : List Json)
  | obj (fields : List (String × Json))

/-- The character `{` (0x7b). -/
def lbrace : Char := Char.ofNat 123

/-- The character `}` (0x7d). -/
def rbrace : Char := Char.ofNat 125

/-- JSON insignificant whitespace. -/
def isWs (c : Char) : Bool := c = ' ' ∨ c = '\t' ∨ c = '\n' ∨ c = '\r'

/-- Drop leading JSON whitespace. -/
def skipWs : List Char → List Char
  | [] => []
  | c :: rest => if isWs c then skipWs rest else c :: rest

/-- Resolution of a JSON escape character (after a backslash). -/
def escapeChar (c : Char) : Option Char :=
  if c = '"' then some '"'
  else if c = '\\' then some '\\'
  else if c = '/' then some '/'
  else if c = 'n' then some '\n'
  else if c = 't' then some '\t'
  else if c = 'r' then some '\r'
  else if c = 'b' then some (Char.ofNat 8)
  else if c = 'f' then some (Char.ofNat 12)
  else none

/-- Parse the body of a JSON string (after the opening quote), up to and
including the closing quote; returns the decoded characters and the
rest of the input.  Raw control characters are invalid. -/
def parseStringBody : List Char → Option (List Char × List Char)
  | [] => none
  | c :: rest =>
    if c = '"' then some ([], rest)
    else if c = '\\' then
      match rest with
      | [] => none
      | e :: rest2 =>
        match escapeChar e with
        | none => none
        | some ch =>
          match parseStringBody rest2 with
          | none => none
          | some (cs, rem) => some (ch :: cs, rem)
    else if c.toNat < 32 then none
    else
      match parseStringBody rest with
      | none => none
      | some (cs, rem) => some (c :: cs, rem)

/-- Numeric value of an ASCII digit. -/
def digitVal (c : Char) : ℕ := c.toNat - 48

/-- Split a maximal run of leading ASCII digits off the input. -/
def takeDigits : List Char → (List Char × List Char)
  | [] => ([], [])
  | c :: rest =>
    if c.isDigit then
      let (ds, rem) := takeDigits rest
      (c :: ds, rem)
    else ([], c :: rest)

/-- Value of a digit run. -/
def digitsToNat (ds : List Char) : ℕ := ds.foldl (fun a c => 10 * a + digitVal c) 0

/-- JSON integer part: a single `0`, or a nonzero digit followed by
digits. -/
def parseIntPart : List Char → Option (ℕ × List Char)
  | [] => none
  | c :: rest =>
    if c = '0' then some (0, rest)
    else if c.isDigit then
      let (ds, rem) := takeDigits rest
      some (digitsToNat (c :: ds), rem)
    else none

/-- Parse a JSON number (`-?int frac? exp?`) into an exact rational.
The value is assembled as an integer numerator over a power-of-ten
denominator and normalized with `mkRat`, avoiding field operations on
`ℚ` so that concrete inputs reduce in the kernel. -/
def parseNumber (s : List Char) : Option (ℚ × List Char) :=
  let signStep : Bool × List Char :=
    match s with
    | c :: rest => if c = '-' then (true, rest) else (false, s)
    | [] => (false, s)
  match parseIntPart signStep.2 with
  | none => none
  | some (ip, s2) =>
    let fracStep : Option ((ℕ × ℕ) × List Char) :=
      match s2 with
      | c :: rest =>
        if c = '.' then
          let (ds, rem) := takeDigits rest
          if ds = [] then none
          else some ((ip * 10 ^ ds.length + digitsToNat ds, ds.length), rem)
        else some ((ip, 0), s2)
      | [] => some ((ip, 0), s2)
    match fracStep with
    | none => none
    | some ((mantissa, fracLen), s3) =>
      let expStep : Option ((ℕ × ℕ) × List Char) :=
        match s3 with
        | c :: rest =>
          if c = 'e' ∨ c = 'E' then
            let signTail : Bool × List Char :=
              match rest with
              | d :: r2 =>
                if d = '+' then (false, r2)
                else if d = '-' then (true, r2)
                else (false, rest)
              | [] => (false, rest)
            let (ds, rem) := takeDigits signTail.2
            if ds = [] then none
            else
              let e := digitsToNat ds
              if signTail.1 then some ((mantissa, 10 ^ (fracLen + e)), rem)
              else some ((mantissa * 10 ^ e, 10 ^ fracLen), rem)
          else some ((mantissa, 10 ^ fracLen), s3)
        | [] => some ((mantissa, 10 ^ fracLen), s3)
      match expStep with
      | none => none
      | some ((num, den), s5) =>
        some (mkRat (if signStep.1 then -(num : ℤ) else (num : ℤ)) den, s5)

/-- Expect a literal tail (for `true`/`false`/`null`). -/
def expectLit (lit : List Char) (s : List Char) (v : Json) : Option (Json × List Char) :=
  if lit.isPrefixOf s then some (v, s.drop lit.length) else none

/-- Parser task: a value, the inside of an array, or the inside of an
object (with the fields accumulated so far). -/
inductive PTask where
  | value
  | arrStart
  | arrItems (acc : List Json)
  | objStart
  | objItems (acc : List (String × Json))

/-- One fuel-indexed step of the recursive-descent JSON parser.  Fuel
`3 * length + 3` always suffices (each recursive call either consumes
input or moves to a subtask that does). -/
def pstep : ℕ → PTask → List Char → Option (Json × List Char)
  | 0, _, _ => none
  | Nat.succ f, .value, s =>
    match skipWs s with
    | [] => none
    | c :: rest =>
      if c = lbrace then pstep f .objStart rest
      else if c = '[' then pstep f .arrStart rest
      else if c = '"' then
        match parseStringBody rest with
        | none => none
        | some (cs, rem) => some (Json.str (String.mk cs), rem)
      else if c = 't' then expectLit ['r', 'u', 'e'] rest (Json.bool true)
      else if c = 'f' then expectLit ['a', 'l', 's', 'e'] rest (Json.bool false)
      else if c = 'n' then expectLit ['u', 'l', 'l'] rest Json.null
      else parseNumber (c :: rest) |>.map (fun p => (Json.num p.1, p.2))
  | Nat.succ f, .arrStart, s =>
    match skipWs s with
    | [] => none
    | c :: rest =>
      if c = ']' then some (Json.arr [], rest)
      else pstep f (.arrItems []) (c :: rest)
  | Nat.succ f, .arrItems acc, s =>
    match pstep f .value s with
    | none => none
    | some (v, rem) =>
      match skipWs rem with
      | [] => none
      | c :: rem2 =>
        if c = ',' then pstep f (.arrItems (acc ++ [v])) rem2
        else if c = ']' then some (Json.arr (acc ++ [v]), rem2)
        else none
  | Nat.succ f, .objStart, s =>
    match skipWs s with
    | [] => none
    | c :: rest =>
      if c = rbrace then some (Json.obj [], rest)
      else pstep f (.objItems []) (c :: rest)
  | Nat.succ f, .objItems acc, s =>
    match skipWs s with
    | [] => none
    | c :: rest =>
      if c = '"' then
        match parseStringBody rest with
        | none => none
        | some (kcs, rem) =>
          match skipWs rem with
          | [] => none
          | c2 :: rem2 =>
            if c2 = ':' then
              match pstep f .value rem2 with
              | none => none
              | some (v, rem3) =>
                match skipWs rem3 with
                | [] => none
                | c3 :: rem4 =>
                  if c3 = ',' then pstep f (.objItems (acc ++ [(String.mk kcs, v)])) rem4
                  else if c3 = rbrace then some (Json.obj (acc ++ [(String.mk kcs, v)]), rem4)
                  else none
            else none
      else none

/-- Tokenize a complete JSON text: one value with nothing but
whitespace around it (Go's `json.Unmarshal` rejects trailing data). -/
def jsonParse (s : List Char) : Option Json :=
  match pstep (3 * s.length + 3) .value s with
  | none => none
  | some (j, rem) => if skipWs rem = [] then some j else none

/-! ## Data model (models/recipe.go) -/

/-- The `models.Ingredient` struct. -/
structure Ingredient where
  name : String
  quantity : String
  unit : String
  deriving DecidableEq, Repr

/-- The `models.CookingStep` struct. -/
structure CookingStep where
  stepNumber : ℤ
  instruction : String
  timing : String
  temperature : String
  deriving DecidableEq, Repr

/-- The `models.RecipeGenerationRequest` struct. -/
structure RecipeGenerationRequest where
  meatType : String
  sideIngredients : List String
  cuisineType : String
  dietaryPreferences : List String
  cookingTime : String
  difficulty : String
  language : String
  deriving DecidableEq, Repr

/-- The `models.RecipeDetail` struct (without the `CreatedAt` timestamp, which no
claim touches).  The parser leaves `id`, `userId` and `imagePath` at
their zero values; the orchestrator fills them in. -/
structure RecipeDetail where
  id : String
  userId : String
  title : String
  description : String
  ingredients : List Ingredient
  steps : List CookingStep
  cookingTime : ℤ
  difficulty : String
  cuisineType : String
  meatType : String
  dietaryTags : List String
  isFavorite : Bool
  imagePath : String
  deriving DecidableEq, Repr

/-! ## Decoding into the parser's anonymous struct -/

/-- Ingredient entry of the anonymous struct in `parseRecipeResponse`:
`Quantity` is `json.RawMessage`, so any present value is captured as-is
(`none` = field absent, i.e. a zero-length raw message). -/
structure TempIngredient where
  name : String
  quantity : Option Json
  unit : String

/-- Step entry of the anonymous struct in `parseRecipeResponse`. -/
structure TempStep where
  stepNumber : ℤ
  instruction : String
  timing : String
  temperature : String

/-- The anonymous struct `json.Unmarshal` fills in
`parseRecipeResponse`. -/
structure TempRecipe where
  title : String
  description : String
  servingSize : ℤ
  cookingTime : ℤ
  prepTime : ℤ
  difficulty : String
  ingredients : List TempIngredient
  steps : List TempStep
  tips : List String
  cuisineType : String
  meatType : String

/-- Go zero value of the anonymous struct. -/
def zeroTemp : TempRecipe := ⟨"", "", 0, 0, 0, "", [], [], [], "", ""⟩

/-- Decode a JSON value into a Go `string` field whose current value is
`cur`: a JSON string overwrites, JSON `null` has no effect, anything
else is a type error. -/
def decStr (cur : String) : Json → Option String
  | .str s => some s
  | .null => some cur
  | _ => none

/-- Decode a JSON value into a Go `int` field: the number must be
integral and fit in `int64`; JSON `null` has no effect. -/
def decInt (cur : ℤ) : Json → Option ℤ
  | .num q => if q.den = 1 ∧ -int64Bound ≤ q.num ∧ q.num < int64Bound then some q.num else none
  | .null => some cur
  | _ => none

/-- ASCII lowercasing, modelling Go's case-insensitive JSON key match
against the all-lowercase struct tags of `parseRecipeResponse`. -/
def lowerAscii (s : String) : String :=
  String.mk (s.data.map fun c => if 'A' ≤ c ∧ c ≤ 'Z' then Char.ofNat (c.toNat + 32) else c)

/-- Decode one element of the `ingredients` array. -/
def decIngredient : Json → Option TempIngredient
  | .null => some ⟨"", none, ""⟩
  | .obj fields =>
    fields.foldlM (fun ing kv =>
      let key := lowerAscii kv.1
      if key = "name" then (decStr ing.name kv.2).map (fun s => { ing with name := s })
      else if key = "quantity" then some { ing with quantity := some kv.2 }
      else if key = "unit" then (decStr ing.unit kv.2).map (fun s => { ing with unit := s })
      else some ing) ⟨"", none, ""⟩
  | _ => none

/-- Decode one element of the `steps` array. -/
def decStep : Json → Option TempStep
  | .null => some ⟨0, "", "", ""⟩
  | .obj fields =>
    fields.foldlM (fun st kv =>
      let key := lowerAscii kv.1
      if key = "step_number" then (decInt st.stepNumber kv.2).map (fun n => { st with stepNumber := n })
      else if key = "instruction" then (decStr st.instruction kv.2).map (fun s => { st with instruction := s })
      else if key = "timing" then (decStr st.timing kv.2).map (fun s => { st with timing := s })
      else if key = "temperature" then (decStr st.temperature kv.2).map (fun s => { st with temperature := s })
      else some st) ⟨0, "", "", ""⟩
  | _ => none

/-- Decode a JSON value into a `[]string` field. -/
def decStrList (cur : List String) : Json → Option (List String)
  | .arr xs => xs.mapM (fun v => decStr "" v)
  | .null => some cur
  | _ => none

/-- Decode a JSON value into the `Ingredients` slice field. -/
def decIngredients (cur : List TempIngredient) : Json → Option (List TempIngredient)
  | .arr xs => xs.mapM decIngredient
  | .null => some cur
  | _ => none

/-- Decode a JSON value into the `Steps` slice field. -/
def decSteps (cur : List TempStep) : Json → Option (List TempStep)
  | .arr xs => xs.mapM decStep
  | .null => some cur
  | _ => none

/-- Model of `json.Unmarshal` of a JSON value into the anonymous struct of
`parseRecipeResponse`: a JSON object assigns its fields in order
(unknown keys ignored), top-level `null` leaves the zero struct, any
other value is a type error. -/
def decodeTemp : Json → Option TempRecipe
  | .null => some zeroTemp
  | .obj fields =>
    fields.foldlM (fun t kv =>
      let key := lowerAscii kv.1
      if key = "title" then (decStr t.title kv.2).map (fun s => { t with title := s })
      else if key = "description" then (decStr t.description kv.2).map (fun s => { t with description := s })
      else if key = "serving_size" then (decInt t.servingSize kv.2).map (fun n => { t with servingSize := n })
      else if key = "cooking_time" then (decInt t.cookingTime kv.2).map (fun n => { t with cookingTime := n })
      else if key = "prep_time" then (decInt t.prepTime kv.2).map (fun n => { t with prepTime := n })
      else if key = "difficulty" then (decStr t.difficulty kv.2).map (fun s => { t with difficulty := s })
      else if key = "ingredients" then (decIngredients t.ingredients kv.2).map (fun xs => { t with ingredients := xs })
      else if key = "steps" then (decSteps t.steps kv.2).map (fun xs => { t with steps := xs })
      else if key = "tips" then (decStrList t.tips kv.2).map (fun xs => { t with tips := xs })
      else if key = "cuisine_type" then (decStr t.cuisineType kv.2).map (fun s => { t with cuisineType := s })
      else if key = "meat_type" then (decStr t.meatType kv.2).map (fun s => { t with meatType := s })
      else some t) zeroTemp
  | _ => none

/-! ## Quantity normalization and `parseRecipeResponse` -/

/-- Round a rational to the nearest integer, ties to even — the
rounding Go's `fmt` applies for the `%.0f` verb.  Computed on the
numerator and denominator with integer floor division so that it
reduces in the kernel: with `f = ⌊q⌋` and `rem = num - f * den`
(so `0 ≤ rem < den`), the fractional part `rem / den` is compared
against `1/2` by cross-multiplication. -/
def roundHalfEven (q : ℚ) : ℤ :=
  let f : ℤ := q.num.fdiv (q.den : ℤ)
  let rem : ℤ := q.num - f * (q.den : ℤ)
  if 2 * rem < (q.den : ℤ) then f
  else if (q.den : ℤ) < 2 * rem then f + 1
  else if f % 2 = 0 then f else f + 1

/-- The ASCII digit character for `d < 10`. -/
def digitChar (d : ℕ) : Char := Char.ofNat (48 + d)

/-- Decimal digits of `n`, fuel-indexed so that it reduces in the
kernel (`Nat.repr` itself is defined by well-founded recursion). -/
def natDigits : ℕ → ℕ → List Char
  | 0, _ => []
  | Nat.succ f, n => if n < 10 then [digitChar n] else natDigits f (n / 10) ++ [digitChar (n % 10)]

/-- Decimal representation of a natural number. -/
def natRepr (n : ℕ) : String := String.mk (natDigits (n + 1) n)

/-- Go's `fmt.Sprintf("%.0f", x)`: sign, then the magnitude rounded to
an integer (so `-0.3` prints as `-0`). -/
def goFmtF0 (q : ℚ) : String :=
  if q < 0 then "-" ++ natRepr (roundHalfEven (-q)).toNat
  else natRepr (roundHalfEven q).toNat

/-- Model of `json.Unmarshal(ing.Quantity, &quantityNum)` for `float64`: a JSON
number (`null` would leave `0`, but the string attempt already absorbs
`null`).  Exact rationals model the values `float64` represents
exactly; every concrete value used in a theorem below is exact. -/
def floatUnmarshal : Json → Option ℚ
  | .num q => some q
  | .null => some 0
  | _ => none

/-- The quantity-normalization loop body of `parseRecipeResponse`
(src/unnamed/part_014, lines 250–268): absent raw message stays `""`;
otherwise try string, then number formatted with `%.0f`, else `""`. -/
def convQuantity : Option Json → String
  | none => ""
  | some raw =>
    match decStr "" raw with
    | some s => s
    | none =>
      match floatUnmarshal raw with
      | some q => goFmtF0 q
      | none => ""

/-- The conversion of the decoded struct into `models.RecipeDetail`
(lines 236–279): total time is `cooking_time + prep_time` (Go `int`
addition), dietary tags are copied from the request, `serving_size`
and `tips` are dropped. -/
def convertTemp (t : TempRecipe) (req : RecipeGenerationRequest) : RecipeDetail where
  id := ""
  userId := ""
  title := t.title
  description := t.description
  ingredients := t.ingredients.map (fun ing => ⟨ing.name, convQuantity ing.quantity, ing.unit⟩)
  steps := t.steps.map (fun st => ⟨st.stepNumber, st.instruction, st.timing, st.temperature⟩)
  cookingTime := goIntAdd t.cookingTime t.prepTime
  difficulty := t.difficulty
  cuisineType := t.cuisineType
  meatType := t.meatType
  dietaryTags := req.dietaryPreferences
  isFavorite := false
  imagePath := ""

/-- Go `strings.Index` for a single character. -/
def goIndexOf (c : Char) : List Char → Option ℕ
  | [] => none
  | x :: rest => if x = c then some 0 else (goIndexOf c rest).map (fun i => i + 1)

/-- Go `strings.LastIndex` for a single character. -/
def goLastIndexOf (c : Char) (s : List Char) : Option ℕ :=
  (goIndexOf c s.reverse).map (fun i => s.length - 1 - i)

/-- Outcome of the payload isolation `response[jsonStart:jsonEnd+1]`:
no brace found, a Go slice-bounds panic (`jsonStart > jsonEnd+1`), or
the sliced substring. -/
inductive ExtractOutcome where
  | noBraces
  | panicked
  | extracted (sub : List Char)
  deriving Repr

/-- Payload isolation of `parseRecipeResponse` (lines 198–205). -/
def extractJsonStr (s : List Char) : ExtractOutcome :=
  match goIndexOf lbrace s, goLastIndexOf rbrace s with
  | some i, some j =>
    if i ≤ j + 1 then .extracted ((s.drop i).take (j + 1 - i)) else .panicked
  | some _, none => .noBraces
  | none, _ => .noBraces

/-- Outcome of `parseRecipeResponse`: the `ErrInvalidJSON` sentinel (no
braces), the wrapped `failed to parse JSON` error (which the caller
maps to `ErrParsingFailed`), a runtime panic, or a recipe. -/
inductive ParseOutcome where
  | errInvalidJSON
  | errMalformed
  | panicked
  | ok (recipe : RecipeDetail)
  deriving DecidableEq, Repr

/-- The decode-and-convert stage applied to the isolated substring. -/
def decodeStage (sub : List Char) (req : RecipeGenerationRequest) : ParseOutcome :=
  match jsonParse sub with
  | none => .errMalformed
  | some j =>
    match decodeTemp j with
    | none => .errMalformed
    | some t => .ok (convertTemp t req)

/-- Embedding of `parseRecipeResponse` (src/unnamed/part_014, lines
196–282). -/
def parseRecipeResponse (response : String) (req : RecipeGenerationRequest) : ParseOutcome :=
  match extractJsonStr response.data with
  | .noBraces => .errInvalidJSON
  | .panicked => .panicked
  | .extracted sub => decodeStage sub req

/-- An empty generation request, used for concrete evaluations. -/
def req0 : RecipeGenerationRequest := ⟨"", [], "", [], "", "", ""⟩

/-! ## Base64 (`encoding/base64`, standard alphabet) -/

/-- Standard base64 alphabet. -/
def b64Char (n : ℕ) : Char :=
  if n < 26 then Char.ofNat (65 + n)
  else if n < 52 then Char.ofNat (97 + (n - 26))
  else if n < 62 then Char.ofNat (48 + (n - 52))
  else if n = 62 then '+' else '/'

/-- Model of `base64.StdEncoding.EncodeToString` over bytes. -/
def base64Encode : List ℕ → List Char
  | [] => []
  | [a] => [b64Char (a / 4), b64Char (a % 4 * 16), '=', '=']
  | [a, b] => [b64Char (a / 4), b64Char (a % 4 * 16 + b / 16), b64Char (b % 16 * 4), '=']
  | a :: b :: c :: rest =>
    b64Char (a / 4) :: b64Char (a % 4 * 16 + b / 16) :: b64Char (b % 16 * 4 + c / 64) ::
      b64Char (c % 64) :: base64Encode rest

/-- Value of a base64 alphabet character. -/
def b64Val (c : Char) : Option ℕ :=
  if 'A' ≤ c ∧ c ≤ 'Z' then some (c.toNat - 65)
  else if 'a' ≤ c ∧ c ≤ 'z' then some (26 + (c.toNat - 97))
  else if '0' ≤ c ∧ c ≤ '9' then some (52 + (c.toNat - 48))
  else if c = '+' then some 62
  else if c = '/' then some 63
  else none

/-- Model of `base64.StdEncoding.DecodeString`: quartets of alphabet characters,
with `=` padding only in the final quartet. -/
def base64Decode : List Char → Option (List ℕ)
  | [] => some []
  | a :: b :: c :: d :: rest =>
    match b64Val a, b64Val b with
    | some va, some vb =>
      if c = '=' ∧ d = '=' ∧ rest = [] then
        some [va * 4 + vb / 16]
      else if d = '=' ∧ rest = [] then
        match b64Val c with
        | some vc => some [va * 4 + vb / 16, vb % 16 * 16 + vc / 4]
        | none => none
      else
        match b64Val c, b64Val d with
        | some vc, some vd =>
          match base64Decode rest with
          | some bs => some ((va * 4 + vb / 16) :: (vb % 16 * 16 + vc / 4) :: (vc % 4 * 64 + vd) :: bs)
          | none => none
        | _, _ => none
    | _, _ => none
  | _ => none

/-! ## Image Requester (`GenerateFoodImage`, services/openai.go)

The OpenAI create-image call and the `http.Get` download are oracles;
`downloadAndConvertToDataURL` is embedded in full over the HTTP
response it is given. -/

/-- An `http.Get` response: status code, `Content-Type` header, and the
result of `io.ReadAll` on the body. -/
structure HttpResp where
  statusCode : ℕ
  contentType : String
  body : Except Unit (List ℕ)

/-- Embedding of `downloadAndConvertToDataURL` (services/openai.go,
lines 85–115), parameterized by the `http.Get` result. -/
def downloadAndConvertToDataURL (httpResult : Except Unit HttpResp) : Except Unit String :=
  match httpResult with
  | .error _ => .error ()
  | .ok resp =>
    if resp.statusCode ≠ 200 then .error ()
    else
      match resp.body with
      | .error _ => .error ()
      | .ok bytes =>
        let ct := if resp.contentType = "" then "image/png" else resp.contentType
        .ok ("data:" ++ ct ++ ";base64," ++ String.mk (base64Encode bytes))

/-- Embedding of `GenerateFoodImage` (services/openai.go, lines 28–64):
`createImageResult` is the provider reply (`.ok urls` = the `Data`
array's URLs), `httpGet` resolves the download of a given URL.  On a
failed download the remote URL itself is returned with a nil error. -/
def GenerateFoodImage (createImageResult : Except Unit (List String))
    (httpGet : String → Except Unit HttpResp) : Except Unit String :=
  match createImageResult with
  | .error _ => .error ()
  | .ok data =>
    match data with
    | [] => .error ()
    | url :: _ =>
      match downloadAndConvertToDataURL (httpGet url) with
      | .error _ => .ok url
      | .ok dataURL => .ok dataURL

/-! ## Media Cleanup (`DeleteRecipeImages`, src/unnamed/part_012) -/

/-- Result of one `os.Remove` call: success, `ErrNotExist`
(`os.IsNotExist` true), or any other error. -/
inductive RemoveOutcome where
  | ok
  | errNotExist
  | errOther
  deriving DecidableEq, Repr

/-- Audit events of `DeleteRecipeImages`.  The two per-file events are
`recipe.image_cleanup_failed` warnings carrying the `is_not_exist`
metadata flag; the summary events are
`recipe.image_cleanup_total_failure` (Error),
`recipe.image_cleanup_partial` (Warn) and `recipe.image_cleanup`
(Info). -/
inductive CEvent where
  | cleanupFailedImage (isNotExist : Bool)
  | cleanupFailedThumb (isNotExist : Bool)
  | totalFailure
  | partialFailure
  | fullSuccess
  deriving DecidableEq, Repr

/-- What one `DeleteRecipeImages` call returns and does: the Go return
value (`err`), the two accumulator slices, and the audit events. -/
structure CleanupResult where
  err : Option Unit
  deletedFiles : List String
  failedFiles : List String
  events : List CEvent
  deriving DecidableEq, Repr

/-- Model of `getAbsolutePath`: prepend `"."`. -/
def getAbsolutePath (urlPath : String) : String := "." ++ urlPath

/-- Model of `strings.HasPrefix(p, "data:")`. -/
def isDataPath (p : String) : Bool := "data:".data.isPrefixOf p.data

/-- Embedding of `DeleteRecipeImages` (src/unnamed/part_012, lines
26–138).  `remove` is the filesystem oracle for `os.Remove`. -/
def DeleteRecipeImages (loggerPresent : Bool) (imagePath thumbnailPath : String)
    (remove : String → RemoveOutcome) : CleanupResult :=
  let imageStep : List String × List String × List CEvent :=
    if imagePath ≠ "" ∧ isDataPath imagePath = false then
      match remove (getAbsolutePath imagePath) with
      | .ok => ([imagePath], [], [])
      | .errNotExist => ([], [imagePath], if loggerPresent then [CEvent.cleanupFailedImage true] else [])
      | .errOther => ([], [imagePath], if loggerPresent then [CEvent.cleanupFailedImage false] else [])
    else ([], [], [])
  let thumbStep : List String × List String × List CEvent :=
    if thumbnailPath ≠ "" ∧ isDataPath thumbnailPath = false then
      match remove (getAbsolutePath thumbnailPath) with
      | .ok => ([thumbnailPath], [], [])
      | .errNotExist => ([], [thumbnailPath], if loggerPresent then [CEvent.cleanupFailedThumb true] else [])
      | .errOther => ([], [thumbnailPath], if loggerPresent then [CEvent.cleanupFailedThumb false] else [])
    else ([], [], [])
  let deletedFiles := imageStep.1 ++ thumbStep.1
  let failedFiles := imageStep.2.1 ++ thumbStep.2.1
  let summary : List CEvent :=
    if loggerPresent then
      if failedFiles.length > 0 ∧ deletedFiles.length = 0 then [CEvent.totalFailure]
      else if deletedFiles.length > 0 ∧ failedFiles.length > 0 then [CEvent.partialFailure]
      else if deletedFiles.length > 0 then [CEvent.fullSuccess]
      else []
    else []
  ⟨none, deletedFiles, failedFiles, imageStep.2.2 ++ thumbStep.2.2 ++ summary⟩

/-! ## Image Normalizer (`OptimizeRecipeImage`, services/image_optimizer.go)

`image.Decode` cannot be reimplemented (it is a raster codec), so it is
an oracle from bytes to decoded dimensions; any image it decodes has
positive dimensions.  `imaging.Fill` of the disintegration/imaging
library is modelled at the dimension level by its documented contract:
scale-to-cover followed by an anchored (here `imaging.Center`) crop,
yielding exactly the requested dimensions for a nonempty source.
Filesystem writes are recorded as `WriteRec`s. -/

/-- One encoded JPEG written to disk: path, pixel dimensions, quality. -/
structure WriteRec where
  path : String
  width : ℕ
  height : ℕ
  quality : ℕ
  deriving DecidableEq, Repr

/-- The `services.OptimizedImages` struct. -/
structure OptimizedImages where
  fullImagePath : String
  thumbnailPath : String
  fullImageURL : String
  thumbnailURL : String
  deriving DecidableEq, Repr

/-- Dimension-level model of `imaging.Fill(src, w, h, imaging.Center,
imaging.Lanczos)`: an empty source or target gives the empty image,
otherwise the result is exactly `w × h` (cover-scale then center
crop). -/
def imagingFill (srcW srcH w h : ℕ) : ℕ × ℕ :=
  if srcW = 0 ∨ srcH = 0 ∨ w = 0 ∨ h = 0 then (0, 0) else (w, h)

/-- Model of `strings.Split` on a separator character. -/
def splitOn (sep : Char) : List Char → List (List Char)
  | [] => [[]]
  | c :: rest =>
    let r := splitOn sep rest
    if c = sep then [] :: r
    else
      match r with
      | [] => [[c]]
      | h :: t => (c :: h) :: t

/-- Embedding of `createOptimizedImage` (services/image_optimizer.go,
lines 127–148): resize with `imaging.Fill`, then create the file and
JPEG-encode at the given quality (`createOk` is the oracle for the
`os.Create`/`jpeg.Encode` pair). -/
def createOptimizedImage (img : ℕ × ℕ) (outputPath : String) (size quality : ℕ)
    (createOk : Bool) : Except Unit WriteRec :=
  let resized := imagingFill img.1 img.2 size size
  if createOk then .ok ⟨outputPath, resized.1, resized.2, quality⟩ else .error ()

/-- The image-data acquisition prefix of `OptimizeRecipeImage` (lines
43–75): the base64 payload of a `data:image/` URL, or the body of a
successful HTTP download. -/
def acquireImageData (imageURL : String) (httpGet : String → Except Unit HttpResp) :
    Except Unit (List ℕ) :=
  if "data:image/".data.isPrefixOf imageURL.data then
    let parts := splitOn ',' imageURL.data
    if parts.length ≠ 2 then .error ()
    else
      match parts with
      | [_, payload] =>
        match base64Decode payload with
        | some bytes => .ok bytes
        | none => .error ()
      | _ => .error ()
  else
    match httpGet imageURL with
    | .error _ => .error ()
    | .ok resp => if resp.statusCode ≠ 200 then .error () else resp.body

/-- Embedding of `OptimizeRecipeImage` (services/image_optimizer.go,
lines 42–124).  `httpGet` serves the non-data-URL branch, `decodeImage`
models `image.Decode` (bytes to pixel dimensions), `imageID` is the
generated UUID, the `Ok` booleans are the `os.MkdirAll` and write
oracles.  On success it returns the `OptimizedImages` struct and the
two files written. -/
def OptimizeRecipeImage (imageURL : String) (httpGet : String → Except Unit HttpResp)
    (decodeImage : List ℕ → Option (ℕ × ℕ)) (imageID : String) (uploadsDir : String)
    (mkdirFullOk mkdirThumbOk createFullOk createThumbOk : Bool) :
    Except Unit (OptimizedImages × List WriteRec) :=
  match acquireImageData imageURL httpGet with
  | .error _ => .error ()
  | .ok bytes =>
    match decodeImage bytes with
    | none => .error ()
    | some img =>
      let fullDir := uploadsDir ++ "/images/full"
      let thumbDir := uploadsDir ++ "/images/thumbnails"
      if mkdirFullOk = false then .error ()
      else if mkdirThumbOk = false then .error ()
      else
        let fullImageFilename := imageID ++ ".jpg"
        let fullImagePath := fullDir ++ "/" ++ fullImageFilename
        match createOptimizedImage img fullImagePath 800 85 createFullOk with
        | .error _ => .error ()
        | .ok w1 =>
          let thumbFilename := imageID ++ "_thumb.jpg"
          let thumbPath := thumbDir ++ "/" ++ thumbFilename
          match createOptimizedImage img thumbPath 200 75 createThumbOk with
          | .error _ => .error ()
          | .ok w2 =>
            .ok (⟨fullImagePath, thumbPath,
                  "/uploads/images/full/" ++ fullImageFilename,
                  "/uploads/images/thumbnails/" ++ thumbFilename⟩, [w1, w2])

/-! ## Generation Orchestrator (`GenerateRecipe` handler, src/unnamed/part_010)

The handler's collaborators are oracles: the quota queries (fed to
`canGenerateRecipe`), the request JSON bind, the Claude text call
(already classified into the service's sentinel errors), the image
call, and the recipe `INSERT`.  `json.Marshal` of the ingredient, step
and tag slices cannot fail for these types and is modelled as carrying
the structured values into the row. -/

/-- The classified errors `ClaudeService.GenerateRecipe` can return. -/
inductive TextErr where
  | rateLimit
  | emptyResponse
  | invalidJSON
  | parsingFailed
  | apiConnection
  | other
  deriving DecidableEq, Repr

/-- HTTP status the handler maps each text-call error to. -/
def statusForTextErr : TextErr → ℕ
  | .rateLimit => 429
  | .emptyResponse => 500
  | .invalidJSON => 500
  | .parsingFailed => 500
  | .apiConnection => 503
  | .other => 500

/-- One row of the recipes-table `INSERT` issued by the handler. -/
structure RecipeRow where
  id : String
  userId : String
  title : String
  description : String
  ingredients : List Ingredient
  steps : List CookingStep
  cookingTime : ℤ
  difficulty : String
  cuisineType : String
  meatType : String
  dietaryTags : List String
  isFavorite : Bool
  imagePath : String
  deriving DecidableEq, Repr

/-- Handler-level events: the three audit-log calls of the handler plus
the `println` warning on an image failure. -/
inductive GEvent where
  | generateStart
  | generateFailure
  | generateSuccess
  | imageWarnPrinted
  deriving DecidableEq, Repr

/-- What one `GenerateRecipe` handler call does: HTTP status, the rows
inserted, and the quota-level and handler-level events. -/
structure GenOutcome where
  status : ℕ
  inserts : List RecipeRow
  quotaEvents : List QEvent
  events : List GEvent
  deriving DecidableEq, Repr

/-- The row the handler's `INSERT` writes (`is_favorite` is the literal
`0`). -/
def mkRow (recipeID userID : String) (r : RecipeDetail) (imagePath : String) : RecipeRow :=
  ⟨recipeID, userID, r.title, r.description, r.ingredients, r.steps, r.cookingTime,
    r.difficulty, r.cuisineType, r.meatType, r.dietaryTags, false, imagePath⟩

/-- Embedding of the `GenerateRecipe` handler (src/unnamed/part_010,
lines 36–185). -/
def GenerateRecipe (loggerPresent : Bool) (limitRead : Except Unit (Option ℤ))
    (globalLimit : String) (countRead : Except Unit ℕ) (bindOk : Bool)
    (textResult : Except TextErr RecipeDetail) (imageResult : Except Unit String)
    (dbExec : Except Unit Unit) (recipeID userID : String) : GenOutcome :=
  let q := canGenerateRecipe loggerPresent limitRead globalLimit countRead
  if q.res = false then ⟨403, [], q.events, []⟩
  else if bindOk = false then ⟨400, [], q.events, []⟩
  else
    let ev0 : List GEvent := if loggerPresent then [GEvent.generateStart] else []
    match textResult with
    | .error e =>
      ⟨statusForTextErr e, [], q.events, ev0 ++ if loggerPresent then [GEvent.generateFailure] else []⟩
    | .ok recipe =>
      let imgStep : String × List GEvent :=
        match imageResult with
        | .ok url => (url, ev0)
        | .error _ => ("", ev0 ++ [GEvent.imageWarnPrinted])
      match dbExec with
      | .error _ => ⟨500, [], q.events, imgStep.2⟩
      | .ok _ =>
        ⟨201, [mkRow recipeID userID recipe imgStep.1], q.events,
          imgStep.2 ++ if loggerPresent then [GEvent.generateSuccess] else []⟩


/-! ## Theorems: Quota Resolver (claims C1, C5) -/

/-- Characterization of `canGenerateRecipe` on error-free lookups: the
returned boolean and whether the count query is issued, as a function
of the resolved effective limit. -/
lemma quota_ok_spec (lp : Bool) (pu : Option ℤ) (g : String) (c : ℕ) :
    (canGenerateRecipe lp (.ok pu) g (.ok c)).res =
      (match effLimit pu g with
       | none => true
       | some l => decide (¬(l = 0 ∨ (c : ℤ) ≥ l)))
    ∧ (canGenerateRecipe lp (.ok pu) g (.ok c)).countQueried =
      (match effLimit pu g with
       | none => false
       | some l => decide (¬ l = 0)) := by
  have check : ∀ l : ℤ,
      (quotaCountCheck lp l true (.ok c)).res = decide (¬(l = 0 ∨ (c : ℤ) ≥ l)) ∧
      (quotaCountCheck lp l true (.ok c)).countQueried = decide (¬ l = 0) := by
    intro l
    by_cases h0 : l = 0
    · subst h0; simp [quotaCountCheck]
    · by_cases hc : (c : ℤ) ≥ l
      · simp [quotaCountCheck, h0, hc]
      · simp [quotaCountCheck, h0, hc]
  cases pu with
  | some l =>
    by_cases hl : l = -1
    · subst hl; simp [canGenerateRecipe, effLimit]
    · simpa [canGenerateRecipe, effLimit, hl] using check l
  | none =>
    by_cases hg : g = "unlimited" ∨ g = ""
    · simp [canGenerateRecipe, effLimit, hg]
    · cases ha : goAtoi g with
      | none => simp [canGenerateRecipe, effLimit, hg, ha]
      | some v => simpa [canGenerateRecipe, effLimit, hg, ha] using check v

/-- **C1** — counterexample to the claim as stated.  With no per-user
limit, the global limit string `"-1"` and a recipe count of `0`, the
check returns `false`, although the effective limit (`-1`, which the
code parses successfully) is neither exactly `0` nor a positive limit
the count has reached, and the claim permits `false` only in those two
cases. -/
theorem c1_counterexample :
    (canGenerateRecipe true (.ok none) "-1" (.ok 0)).res = false ∧
    goAtoi "-1" = some (-1) ∧
    ¬((-1 : ℤ) = 0 ∨ (0 < (-1 : ℤ) ∧ (-1 : ℤ) ≤ (0 : ℤ))) := by
  exact ⟨by decide, by decide, by decide⟩

/-- **C1** (amended): for per-user override in `{absent, -1, 0, n>0}`,
`canGenerateRecipe` returns `false` iff the effective limit resolves to
exactly `0`, or the count has reached a positive effective limit, or
the global string parses to a negative integer (which blocks
regardless of count); it returns `true` whenever the per-user limit is
`-1`, or there is no per-user limit and the global value is
`"unlimited"`, empty, or unparsable; and when the effective limit is
`0` it returns `false` without issuing the count query. -/
theorem c1_quota_resolution (lp : Bool) (pu : Option ℤ) (g : String) (c : ℕ)
    (_hpu : pu = none ∨ pu = some (-1) ∨ ∃ n : ℤ, 0 ≤ n ∧ pu = some n) :
    ((canGenerateRecipe lp (.ok pu) g (.ok c)).res = false ↔
      (effLimit pu g = some 0 ∨
        (∃ l, effLimit pu g = some l ∧ 0 < l ∧ l ≤ (c : ℤ)) ∨
        (∃ l, effLimit pu g = some l ∧ l < 0)))
    ∧ (pu = some (-1) → (canGenerateRecipe lp (.ok pu) g (.ok c)).res = true)
    ∧ (pu = none → (g = "unlimited" ∨ g = "" ∨ goAtoi g = none) →
        (canGenerateRecipe lp (.ok pu) g (.ok c)).res = true)
    ∧ (effLimit pu g = some 0 → (canGenerateRecipe lp (.ok pu) g (.ok c)).countQueried = false) := by
  obtain ⟨hres, hcq⟩ := quota_ok_spec lp pu g c
  refine ⟨?_, ?_, ?_, ?_⟩
  · rw [hres]
    cases he : effLimit pu g with
    | none => simp
    | some l =>
      have hdec : (decide (¬(l = 0 ∨ (c : ℤ) ≥ l)) = false) ↔ (l = 0 ∨ (c : ℤ) ≥ l) := by
        rw [decide_eq_false_iff_not, not_not]
      rw [hdec]
      constructor
      · intro h'
        rcases lt_trichotomy l 0 with hneg | h0 | hpos
        · exact Or.inr (Or.inr ⟨l, rfl, hneg⟩)
        · exact Or.inl (by rw [h0])
        · rcases h' with h0 | hge
          · omega
          · exact Or.inr (Or.inl ⟨l, rfl, hpos, hge⟩)
      · rintro (h0 | ⟨l', hl', hpos, hle⟩ | ⟨l', hl', hneg⟩)
        · exact Or.inl (Option.some.inj h0)
        · obtain rfl : l = l' := Option.some.inj hl'
          omega
        · obtain rfl : l = l' := Option.some.inj hl'
          omega
  · rintro rfl
    rw [hres]; simp [effLimit]
  · rintro rfl hg
    rw [hres]
    rcases hg with h | h | h <;> simp [effLimit, h]
  · intro h0
    rw [hcq, h0]; simp

/-- Witness for `c1_quota_resolution`: per-user limit `3`, count `5` —
the check returns `false` because the count has reached the positive
effective limit. -/
theorem c1_quota_resolution_witness :
    (canGenerateRecipe true (.ok (some 3)) "x" (.ok 5)).res = false :=
  (c1_quota_resolution true (some 3) "x" 5
      (Or.inr (Or.inr ⟨3, by decide, rfl⟩))).1.mpr
    (Or.inr (Or.inl ⟨3, by decide, by decide, by decide⟩))

/-- **C5** — counterexample to the claim as stated.  With a per-user
limit of `5` and a failing recipe-count query, the check fails open
(returns `true`) and the count query was issued, but the audit event
list is empty: the count-lookup error is silently swallowed, while the
claim requires every lookup error to be logged. -/
theorem c5_counterexample :
    (canGenerateRecipe true (.ok (some 5)) "" (.error ())).res = true ∧
    (canGenerateRecipe true (.ok (some 5)) "" (.error ())).countQueried = true ∧
    (canGenerateRecipe true (.ok (some 5)) "" (.error ())).events = [] := by
  exact ⟨by decide, by decide, by decide⟩

/-- **C5** (amended): both lookup errors fail open — a failed per-user
limit read and a failed count query each make `canGenerateRecipe`
return `true` — and the limit-read failure is logged
(`recipe.limit_check_failed`), but the count-query failure is not
logged at all: whenever the count query is issued and fails, the call
returns `true` with an empty event list. -/
theorem c5_fail_open_logging (g : String) (cr : Except Unit ℕ) (pu : Option ℤ)
    (hq : (canGenerateRecipe true (.ok pu) g (.error ())).countQueried = true) :
    ((canGenerateRecipe true (.error ()) g cr).res = true ∧
      QEvent.limitCheckFailed ∈ (canGenerateRecipe true (.error ()) g cr).events)
    ∧ ((canGenerateRecipe true (.ok pu) g (.error ())).res = true ∧
        (canGenerateRecipe true (.ok pu) g (.error ())).events = []) := by
  constructor
  · exact ⟨rfl, by simp [canGenerateRecipe]⟩
  · have check : ∀ l : ℤ,
        (quotaCountCheck true l true (.error ())).countQueried = true →
        (quotaCountCheck true l true (.error ())).res = true ∧
        (quotaCountCheck true l true (.error ())).events = [] := by
      intro l h
      by_cases h0 : l = 0
      · subst h0; simp [quotaCountCheck] at h
      · simp [quotaCountCheck, h0]
    cases pu with
    | some l =>
      by_cases hl : l = -1
      · subst hl; simp [canGenerateRecipe] at hq
      · simp only [canGenerateRecipe, if_neg hl] at hq ⊢
        exact check l hq
    | none =>
      by_cases hg : g = "unlimited" ∨ g = ""
      · simp [canGenerateRecipe, hg] at hq
      · cases ha : goAtoi g with
        | none => simp [canGenerateRecipe, hg, ha] at hq
        | some v =>
          simp only [canGenerateRecipe, if_neg hg, ha] at hq ⊢
          exact check v hq

/-- Witness for `c5_fail_open_logging`: per-user limit `5`, failing
count query — fails open with nothing logged. -/
theorem c5_fail_open_logging_witness :
    (canGenerateRecipe true (.ok (some 5)) "x" (.error ())).res = true ∧
    (canGenerateRecipe true (.ok (some 5)) "x" (.error ())).events = [] :=
  (c5_fail_open_logging "x" (.error ()) (some 5) (by decide)).2

/-! ## Theorems: Reply Parser (claims C7, C2, C3, C10) -/

/-- The `strings.Index` model misses a character exactly when it is absent. -/
lemma goIndexOf_eq_none_iff (c : Char) (s : List Char) : goIndexOf c s = none ↔ c ∉ s := by
  induction s with
  | nil => simp [goIndexOf]
  | cons x rest ih =>
    by_cases hx : x = c
    · subst hx; simp [goIndexOf]
    · rw [goIndexOf, if_neg hx]
      simp only [Option.map_eq_none', ih, List.mem_cons]
      constructor
      · intro h hor
        rcases hor with h1 | h2
        · exact hx h1.symm
        · exact h h2
      · intro h h2
        exact h (Or.inr h2)

/-- The `strings.LastIndex` model misses a character exactly when it is absent. -/
lemma goLastIndexOf_eq_none_iff (c : Char) (s : List Char) :
    goLastIndexOf c s = none ↔ c ∉ s := by
  simp [goLastIndexOf, Option.map_eq_none', goIndexOf_eq_none_iff]

/-- The decode stage never yields the `ErrInvalidJSON` sentinel: its
failures are the wrapped decode error. -/
lemma decodeStage_ne_invalid (sub : List Char) (req : RecipeGenerationRequest) :
    decodeStage sub req ≠ .errInvalidJSON := by
  rcases h1 : jsonParse sub with _ | j
  · simp [decodeStage, h1]
  · rcases h2 : decodeTemp j with _ | t
    · simp [decodeStage, h1, h2]
    · simp [decodeStage, h1, h2]

/-- Payload isolation fails with `noBraces` exactly when a brace is
missing. -/
lemma extractJsonStr_eq_noBraces_iff (s : List Char) :
    extractJsonStr s = .noBraces ↔ (lbrace ∉ s ∨ rbrace ∉ s) := by
  rcases hI : goIndexOf lbrace s with _ | i
  · simp [extractJsonStr, hI, (goIndexOf_eq_none_iff lbrace s).mp hI]
  · rcases hJ : goLastIndexOf rbrace s with _ | j
    · simp [extractJsonStr, hI, hJ, (goLastIndexOf_eq_none_iff rbrace s).mp hJ]
    · have h1 : lbrace ∈ s := by
        by_contra h
        rw [← goIndexOf_eq_none_iff] at h
        simp [h] at hI
      have h2 : rbrace ∈ s := by
        by_contra h
        rw [← goLastIndexOf_eq_none_iff] at h
        simp [h] at hJ
      by_cases hij : i ≤ j + 1 <;> simp [extractJsonStr, hI, hJ, hij, h1, h2]

/-- **C7** — counterexample to the claim as stated.  The reply `"}a{"`
contains both braces, yet the code neither fails with `ErrInvalidJSON`
nor decodes any substring: slicing `response[2:1]` panics with a Go
slice-bounds violation, because the last `}` precedes the first `{`. -/
theorem c7_counterexample :
    lbrace ∈ "\x7da\x7b".data ∧ rbrace ∈ "\x7da\x7b".data ∧
    parseRecipeResponse "\x7da\x7b" req0 = .panicked := by
  exact ⟨by decide, by decide, by decide⟩

/-- **C7** (amended): `parseRecipeResponse` fails with `ErrInvalidJSON`
iff the reply contains no `{` or no `}`.  When both are present and the
first `{` is at index `i` with the last `}` at index `j`: if
`i ≤ j + 1` the code decodes exactly the slice `response[i:j+1]` (so a
well-formed payload surrounded by leading/trailing prose parses
successfully), and if `j + 1 < i` the slice expression panics. -/
theorem c7_payload_isolation (s : String) (req : RecipeGenerationRequest) :
    (parseRecipeResponse s req = .errInvalidJSON ↔ (lbrace ∉ s.data ∨ rbrace ∉ s.data))
    ∧ (∀ i j, goIndexOf lbrace s.data = some i → goLastIndexOf rbrace s.data = some j →
        i ≤ j + 1 →
        parseRecipeResponse s req = decodeStage ((s.data.drop i).take (j + 1 - i)) req)
    ∧ (∀ i j, goIndexOf lbrace s.data = some i → goLastIndexOf rbrace s.data = some j →
        j + 1 < i → parseRecipeResponse s req = .panicked) := by
  refine ⟨?_, ?_, ?_⟩
  · rcases hx : extractJsonStr s.data with _ | _ | sub
    · simp only [parseRecipeResponse, hx]
      simpa using (extractJsonStr_eq_noBraces_iff s.data).mp hx
    · simp only [parseRecipeResponse, hx]
      constructor
      · intro h; simp at h
      · intro h
        have h2 := (extractJsonStr_eq_noBraces_iff s.data).mpr h
        rw [hx] at h2
        simp at h2
    · simp only [parseRecipeResponse, hx]
      constructor
      · intro h; exact absurd h (decodeStage_ne_invalid sub req)
      · intro h
        have h2 := (extractJsonStr_eq_noBraces_iff s.data).mpr h
        rw [hx] at h2
        simp at h2
  · intro i j hI hJ hle
    simp [parseRecipeResponse, extractJsonStr, hI, hJ, hle]
  · intro i j hI hJ hgt
    have hn : ¬ i ≤ j + 1 := by omega
    simp [parseRecipeResponse, extractJsonStr, hI, hJ, hn]

/-- Witness for `c7_payload_isolation`: the payload of
`"x{"steps":[]}y"` (first `{` at 1, last `}` at 12) is decoded exactly,
and that prose-surrounded payload parses successfully. -/
theorem c7_payload_isolation_witness :
    parseRecipeResponse "x\x7b\"steps\":[]\x7dy" req0 =
      decodeStage (("x\x7b\"steps\":[]\x7dy".data.drop 1).take 12) req0 ∧
    decodeStage (("x\x7b\"steps\":[]\x7dy".data.drop 1).take 12) req0 =
      .ok ⟨"", "", "", "", [], [], 0, "", "", "", [], false, ""⟩ :=
  ⟨(c7_payload_isolation "x\x7b\"steps\":[]\x7dy" req0).2.1 1 12 (by decide) (by decide)
      (by decide),
    by decide⟩

/-- **C2** — counterexample to the claim as stated.  A decodable payload
whose `steps` list is empty is *returned* as a draft (with empty
steps), not rejected: `parseRecipeResponse` performs no minimum-shape
validation. -/
theorem c2_counterexample :
    parseRecipeResponse "\x7b\"title\":\"T\",\"description\":\"D\",\"serving_size\":2,\"cooking_time\":10,\"prep_time\":5,\"difficulty\":\"easy\",\"ingredients\":[\x7b\"name\":\"salt\",\"quantity\":\"1\",\"unit\":\"g\"\x7d],\"steps\":[],\"tips\":[],\"cuisine_type\":\"Italian\",\"meat_type\":\"Chicken\"\x7d" req0 =
      .ok ⟨"", "", "T", "D", [⟨"salt", "1", "g"⟩], [], 15, "easy", "Italian", "Chicken", [], false, ""⟩ := by
  decide

/-- **C2** (amended): `parseRecipeResponse` performs no shape
validation at all — whenever payload isolation and decoding succeed it
returns the converted draft, even when the decoded step list (or
ingredient list) is empty; in particular an empty step list yields an
`ok` draft whose steps are empty. -/
theorem c2_no_shape_validation (s : String) (req : RecipeGenerationRequest)
    (sub : List Char) (j : Json) (t : TempRecipe)
    (hx : extractJsonStr s.data = .extracted sub)
    (hp : jsonParse sub = some j)
    (hd : decodeTemp j = some t) :
    parseRecipeResponse s req = .ok (convertTemp t req) ∧
    (t.steps = [] → ∃ r, parseRecipeResponse s req = .ok r ∧ r.steps = []) := by
  have hmain : parseRecipeResponse s req = .ok (convertTemp t req) := by
    simp [parseRecipeResponse, hx, decodeStage, hp, hd]
  refine ⟨hmain, fun hsteps => ⟨convertTemp t req, hmain, ?_⟩⟩
  simp [convertTemp, hsteps]

/-- Witness for `c2_no_shape_validation`: a decodable payload with one
ingredient and an empty step list is accepted. -/
theorem c2_no_shape_validation_witness :
    parseRecipeResponse "\x7b\"ingredients\":[\x7b\"name\":\"salt\",\"quantity\":\"1\",\"unit\":\"g\"\x7d],\"steps\":[]\x7d" req0 =
      .ok (convertTemp ⟨"", "", 0, 0, 0, "", [⟨"salt", some (Json.str "1"), "g"⟩], [], [], "", ""⟩ req0) ∧
    (parseRecipeResponse "\x7b\"ingredients\":[\x7b\"name\":\"salt\",\"quantity\":\"1\",\"unit\":\"g\"\x7d],\"steps\":[]\x7d" req0 =
      .ok ⟨"", "", "", "", [⟨"salt", "1", "g"⟩], [], 0, "", "", "", [], false, ""⟩) :=
  ⟨(c2_no_shape_validation
      "\x7b\"ingredients\":[\x7b\"name\":\"salt\",\"quantity\":\"1\",\"unit\":\"g\"\x7d],\"steps\":[]\x7d"
      req0
      "\x7b\"ingredients\":[\x7b\"name\":\"salt\",\"quantity\":\"1\",\"unit\":\"g\"\x7d],\"steps\":[]\x7d".data
      (Json.obj [("ingredients",
          Json.arr [Json.obj [("name", Json.str "salt"), ("quantity", Json.str "1"),
            ("unit", Json.str "g")]]),
        ("steps", Json.arr [])])
      ⟨"", "", 0, 0, 0, "", [⟨"salt", some (Json.str "1"), "g"⟩], [], [], "", ""⟩
      (by rfl) (by rfl) (by rfl)).1,
    by decide⟩

/-- Rounding a natural number is the identity. -/
lemma roundHalfEven_natCast (n : ℕ) : roundHalfEven ((n : ℕ) : ℚ) = (n : ℤ) := by
  simp [roundHalfEven, Int.fdiv_one]

/-- Formatting a whole number with the f0 verb prints its decimal digits. -/
lemma goFmtF0_natCast (n : ℕ) : goFmtF0 ((n : ℕ) : ℚ) = natRepr n := by
  rw [goFmtF0, if_neg (not_lt.mpr (by positivity)), roundHalfEven_natCast]
  simp

/-- Normalizing a whole-number JSON quantity yields its decimal
string. -/
lemma convQuantity_num_nat (n : ℕ) : convQuantity (some (Json.num ((n : ℕ) : ℚ))) = natRepr n := by
  simp [convQuantity, decStr, floatUnmarshal, goFmtF0_natCast]

/-- A reply with the quantity as the JSON number `500`. -/
def c3NumReply : String :=
  "\x7b\"ingredients\":[\x7b\"name\":\"chicken breast\",\"quantity\":500,\"unit\":\"g\"\x7d],\"steps\":[\x7b\"step_number\":1,\"instruction\":\"cook\"\x7d]\x7d"

/-- The same reply with the quantity as the JSON string `"500"`. -/
def c3StrReply : String :=
  "\x7b\"ingredients\":[\x7b\"name\":\"chicken breast\",\"quantity\":\"500\",\"unit\":\"g\"\x7d],\"steps\":[\x7b\"step_number\":1,\"instruction\":\"cook\"\x7d]\x7d"

/-- **C3** — counterexample to the claim as stated.  A numeric quantity
is *not* in general formatted without losing its value: `%.0f` rounds,
so the JSON number `2.5` becomes the string `"2"`. -/
theorem c3_counterexample :
    parseRecipeResponse "\x7b\"ingredients\":[\x7b\"name\":\"cream\",\"quantity\":2.5,\"unit\":\"dl\"\x7d],\"steps\":[]\x7d" req0 =
      .ok ⟨"", "", "", "", [⟨"cream", "2", "dl"⟩], [], 0, "", "", "", [], false, ""⟩ ∧
    ("2" : String) ≠ "2.5" := by
  exact ⟨by decide, by decide⟩

/-- **C3** (amended): two decoded replies identical except that one
ingredient's quantity is the JSON number `n` and the other the JSON
string of `n`'s decimal digits convert to identical drafts (for whole
`n` in the `float64`-exact range), the quantity normalized to the
decimal string; in particular the concrete `500` / `"500"` reply pair
parses to identical results with quantity `"500"`.  A fractional
numeric quantity, however, is rounded by `%.0f` (see the
counterexample), so only whole-number values round-trip. -/
theorem c3_quantity_normalization :
    (∀ (t : TempRecipe) (req : RecipeGenerationRequest) (pre post : List TempIngredient)
        (name unit : String) (n : ℕ), n < 2 ^ 53 →
      convQuantity (some (Json.num ((n : ℕ) : ℚ))) = natRepr n ∧
      convertTemp { t with ingredients := pre ++ ⟨name, some (Json.num ((n : ℕ) : ℚ)), unit⟩ :: post } req =
        convertTemp { t with ingredients := pre ++ ⟨name, some (Json.str (natRepr n)), unit⟩ :: post } req)
    ∧ parseRecipeResponse c3NumReply req0 = parseRecipeResponse c3StrReply req0
    ∧ (∃ r, parseRecipeResponse c3NumReply req0 = .ok r ∧
        r.ingredients = [⟨"chicken breast", "500", "g"⟩]) := by
  refine ⟨?_, by decide,
    ⟨⟨"", "", "", "", [⟨"chicken breast", "500", "g"⟩], [⟨1, "cook", "", ""⟩], 0, "", "", "",
        [], false, ""⟩, by decide, rfl⟩⟩
  intro t req pre post name unit n _hn
  exact ⟨convQuantity_num_nat n,
    by simp [convertTemp, convQuantity, decStr, floatUnmarshal, goFmtF0_natCast]⟩

/-- Witness for `c3_quantity_normalization` at `n = 500`. -/
theorem c3_quantity_normalization_witness :
    convQuantity (some (Json.num ((500 : ℕ) : ℚ))) = "500" ∧
    convQuantity (some (Json.str "500")) = "500" :=
  ⟨((c3_quantity_normalization.1 zeroTemp req0 [] [] "chicken breast" "g" 500
      (by norm_num)).1).trans (by decide),
    by decide⟩

/-- Is this JSON value a string? -/
def isJsonStr : Json → Bool
  | .str _ => true
  | _ => false

/-- Is this JSON value a number? -/
def isJsonNum : Json → Bool
  | .num _ => true
  | _ => false

/-- **C10** (confirmed): an ingredient whose `quantity` is present but
neither a JSON string nor a JSON number (e.g. `null`, an array, an
object), or absent entirely, never causes a decode error — the
ingredient object still decodes (any raw value is captured), the
normalized quantity silently becomes the empty string, and a full
reply with such quantities parses to `ok`. -/
theorem c10_quantity_fallback :
    (∀ (name unit : String) (v : Json),
      decIngredient (Json.obj [("name", Json.str name), ("quantity", v), ("unit", Json.str unit)]) =
        some ⟨name, some v, unit⟩)
    ∧ (∀ v : Json, isJsonStr v = false → isJsonNum v = false → convQuantity (some v) = "")
    ∧ convQuantity none = ""
    ∧ parseRecipeResponse "\x7b\"ingredients\":[\x7b\"name\":\"a\",\"quantity\":null,\"unit\":\"g\"\x7d,\x7b\"name\":\"b\",\"quantity\":[1,2],\"unit\":\"g\"\x7d,\x7b\"name\":\"c\",\"unit\":\"g\"\x7d],\"steps\":[]\x7d" req0 =
        .ok ⟨"", "", "", "", [⟨"a", "", "g"⟩, ⟨"b", "", "g"⟩, ⟨"c", "", "g"⟩], [], 0, "", "",
          "", [], false, ""⟩ := by
  refine ⟨fun name unit v => rfl, ?_, rfl, by decide⟩
  intro v hs hn
  cases v with
  | null => rfl
  | bool b => rfl
  | num q => simp [isJsonNum] at hn
  | str s => simp [isJsonStr] at hs
  | arr xs => rfl
  | obj fs => rfl

/-- Witness for `c10_quantity_fallback`: `null` and an array quantity
both normalize to the empty string. -/
theorem c10_quantity_fallback_witness :
    convQuantity (some Json.null) = "" ∧
    convQuantity (some (Json.arr [Json.num 1, Json.num 2])) = "" :=
  ⟨c10_quantity_fallback.2.1 Json.null rfl rfl,
    c10_quantity_fallback.2.1 (Json.arr [Json.num 1, Json.num 2]) rfl rfl⟩

/-! ## Theorems: Media Cleanup (claim C4) -/

/-- **C4** — counterexample to the claim as stated.  When the file is
already absent (`os.Remove` reports a not-exist error), the call still
returns no error, but the path *is* appended to `failedFiles`, a
`recipe.image_cleanup_failed` warning *is* logged (with
`is_not_exist = true`), and the summary is a total-failure error log —
the absent file is counted and logged as a failure, not classified as
benign. -/
theorem c4_counterexample :
    (DeleteRecipeImages true "/uploads/images/full/a.jpg" "" (fun _ => .errNotExist)).err = none ∧
    (DeleteRecipeImages true "/uploads/images/full/a.jpg" "" (fun _ => .errNotExist)).failedFiles =
      ["/uploads/images/full/a.jpg"] ∧
    (DeleteRecipeImages true "/uploads/images/full/a.jpg" "" (fun _ => .errNotExist)).events =
      [CEvent.cleanupFailedImage true, CEvent.totalFailure] := by
  exact ⟨by decide, by decide, by decide⟩

/-- **C4** (amended): `DeleteRecipeImages` never returns an error for
any input paths and any filesystem behavior — so a repeated call on the
same variant set also returns no error — but a file-already-absent
condition is *not* treated as benign: the path is counted in
`failedFiles` and, when a logger is present, logged as a cleanup
failure carrying the `is_not_exist` flag. -/
theorem c4_cleanup_never_errors (lp : Bool) (ip tp : String) (fs : String → RemoveOutcome)
    (hip : ip ≠ "") (hdata : isDataPath ip = false)
    (habs : fs (getAbsolutePath ip) = .errNotExist) :
    (DeleteRecipeImages lp ip tp fs).err = none ∧
    ip ∈ (DeleteRecipeImages lp ip tp fs).failedFiles ∧
    (lp = true → CEvent.cleanupFailedImage true ∈ (DeleteRecipeImages lp ip tp fs).events) := by
  refine ⟨rfl, ?_, ?_⟩
  · simp [DeleteRecipeImages, hip, hdata, habs]
  · intro hlp
    subst hlp
    simp [DeleteRecipeImages, hip, hdata, habs]

/-- Witness for `c4_cleanup_never_errors`: a second cleanup call whose
files are all already absent. -/
theorem c4_cleanup_never_errors_witness :
    (DeleteRecipeImages true "/uploads/images/full/b.jpg" "/uploads/images/thumbnails/b_thumb.jpg"
        (fun _ => RemoveOutcome.errNotExist)).err = none ∧
    "/uploads/images/full/b.jpg" ∈
      (DeleteRecipeImages true "/uploads/images/full/b.jpg" "/uploads/images/thumbnails/b_thumb.jpg"
        (fun _ => RemoveOutcome.errNotExist)).failedFiles ∧
    CEvent.cleanupFailedImage true ∈
      (DeleteRecipeImages true "/uploads/images/full/b.jpg" "/uploads/images/thumbnails/b_thumb.jpg"
        (fun _ => RemoveOutcome.errNotExist)).events := by
  obtain ⟨h1, h2, h3⟩ := c4_cleanup_never_errors true "/uploads/images/full/b.jpg"
    "/uploads/images/thumbnails/b_thumb.jpg" (fun _ => RemoveOutcome.errNotExist)
    (by decide) (by decide) rfl
  exact ⟨h1, h2, h3 rfl⟩

/-! ## Theorems: Image Requester (claim C9) -/

/-- **C9** (confirmed): when the image provider returns at least one
URL and the download-and-convert-to-data-URL step fails for any reason,
`GenerateFoodImage` returns the remote provider URL itself with a nil
error — so the caller may persist a transient external URL as the
recipe's image path. -/
theorem c9_url_fallback (url : String) (rest : List String)
    (httpGet : String → Except Unit HttpResp)
    (hfail : downloadAndConvertToDataURL (httpGet url) = .error ()) :
    GenerateFoodImage (.ok (url :: rest)) httpGet = .ok url := by
  simp [GenerateFoodImage, hfail]

/-- Witness for `c9_url_fallback`: the download transport fails, the
provider URL comes back with no error. -/
theorem c9_url_fallback_witness :
    GenerateFoodImage (.ok ["https://img.example/x.png"]) (fun _ => .error ()) =
      .ok "https://img.example/x.png" :=
  c9_url_fallback "https://img.example/x.png" [] (fun _ => .error ()) rfl

/-! ## Theorems: Generation Orchestrator (claim C6) -/

/-- **C6** (confirmed): whenever the quota gate passes, the text call
succeeds and the image call fails, the handler does not fail the
request: exactly one row is inserted, carrying the recipe's textual
fields (title, description, ingredients, steps) unchanged and an empty
image path; the image failure is logged as a console warning; the
response is 201. -/
theorem c6_image_failure_nonfatal (lp : Bool) (lr : Except Unit (Option ℤ)) (g : String)
    (cr : Except Unit ℕ) (recipe : RecipeDetail) (rid uid : String)
    (hq : (canGenerateRecipe lp lr g cr).res = true) :
    (GenerateRecipe lp lr g cr true (.ok recipe) (.error ()) (.ok ()) rid uid).status = 201 ∧
    (GenerateRecipe lp lr g cr true (.ok recipe) (.error ()) (.ok ()) rid uid).inserts =
      [⟨rid, uid, recipe.title, recipe.description, recipe.ingredients, recipe.steps,
        recipe.cookingTime, recipe.difficulty, recipe.cuisineType, recipe.meatType,
        recipe.dietaryTags, false, ""⟩] ∧
    GEvent.imageWarnPrinted ∈
      (GenerateRecipe lp lr g cr true (.ok recipe) (.error ()) (.ok ()) rid uid).events := by
  refine ⟨?_, ?_, ?_⟩ <;> simp [GenerateRecipe, hq, mkRow]

/-- Witness for `c6_image_failure_nonfatal`: unlimited per-user quota,
concrete recipe, failing image call. -/
theorem c6_image_failure_nonfatal_witness :
    (GenerateRecipe true (.ok (some (-1))) "" (.ok 0) true
      (.ok ⟨"", "", "T", "D", [⟨"salt", "1", "g"⟩], [⟨1, "mix", "", ""⟩], 15, "easy", "It",
        "Chi", ["vegan"], false, ""⟩)
      (.error ()) (.ok ()) "r1" "u1").inserts =
      [⟨"r1", "u1", "T", "D", [⟨"salt", "1", "g"⟩], [⟨1, "mix", "", ""⟩], 15, "easy", "It",
        "Chi", ["vegan"], false, ""⟩] :=
  (c6_image_failure_nonfatal true (.ok (some (-1))) "" (.ok 0)
    ⟨"", "", "T", "D", [⟨"salt", "1", "g"⟩], [⟨1, "mix", "", ""⟩], 15, "easy", "It", "Chi",
      ["vegan"], false, ""⟩
    "r1" "u1" (by decide)).2.1

/-! ## Theorems: Image Normalizer (claim C8) -/

/-- **C8** (confirmed): for any acquired image that decodes (to any
nonzero dimensions, i.e. arbitrary aspect ratio) and error-free
filesystem oracles, `OptimizeRecipeImage` writes exactly two JPEG
variants, the full one exactly 800×800 at quality 85 and the thumbnail
exactly 200×200 at quality 75 (via `imaging.Fill` center
crop-and-scale), both under the one generated identifier with the
thumbnail filename the identifier plus the fixed `_thumb` suffix, and
returns storage-relative URL paths under `/uploads/`. -/
theorem c8_two_variant_normalization (imageURL : String)
    (httpGet : String → Except Unit HttpResp) (decodeImage : List ℕ → Option (ℕ × ℕ))
    (imageID uploadsDir : String) (bytes : List ℕ) (w h : ℕ)
    (hacq : acquireImageData imageURL httpGet = .ok bytes)
    (hdec : decodeImage bytes = some (w, h)) (hw : 1 ≤ w) (hh : 1 ≤ h) :
    OptimizeRecipeImage imageURL httpGet decodeImage imageID uploadsDir true true true true =
      .ok (⟨uploadsDir ++ "/images/full" ++ "/" ++ (imageID ++ ".jpg"),
            uploadsDir ++ "/images/thumbnails" ++ "/" ++ (imageID ++ "_thumb.jpg"),
            "/uploads/images/full/" ++ (imageID ++ ".jpg"),
            "/uploads/images/thumbnails/" ++ (imageID ++ "_thumb.jpg")⟩,
          [⟨uploadsDir ++ "/images/full" ++ "/" ++ (imageID ++ ".jpg"), 800, 800, 85⟩,
            ⟨uploadsDir ++ "/images/thumbnails" ++ "/" ++ (imageID ++ "_thumb.jpg"), 200, 200, 75⟩]) ∧
    imageID ++ "_thumb.jpg" = imageID ++ "_thumb" ++ ".jpg" := by
  have hwh : ¬(w = 0 ∨ h = 0) := by omega
  constructor
  · simp [OptimizeRecipeImage, hacq, hdec, createOptimizedImage, imagingFill, hwh]
  · simp [String.append_assoc]

/-- Witness for `c8_two_variant_normalization`: a base64 data URL whose
payload decodes to a 1024×768 image. -/
theorem c8_two_variant_normalization_witness :
    OptimizeRecipeImage "data:image/png;base64,AAAA" (fun _ => .error ())
        (fun _ => some (1024, 768)) "id1" "./uploads" true true true true =
      .ok (⟨"./uploads" ++ "/images/full" ++ "/" ++ ("id1" ++ ".jpg"),
            "./uploads" ++ "/images/thumbnails" ++ "/" ++ ("id1" ++ "_thumb.jpg"),
            "/uploads/images/full/" ++ ("id1" ++ ".jpg"),
            "/uploads/images/thumbnails/" ++ ("id1" ++ "_thumb.jpg")⟩,
          [⟨"./uploads" ++ "/images/full" ++ "/" ++ ("id1" ++ ".jpg"), 800, 800, 85⟩,
            ⟨"./uploads" ++ "/images/thumbnails" ++ "/" ++ ("id1" ++ "_thumb.jpg"), 200, 200, 75⟩]) :=
  (c8_two_variant_normalization "data:image/png;base64,AAAA" (fun _ => .error ())
    (fun _ => some (1024, 768)) "id1" "./uploads" [0, 0, 0] 1024 768
    rfl rfl (by decide) (by decide)).1

end Chefly
